import Mathlib

/-!
# my-k8s-redeploy: a shallow embedding of `redeploy.go`

The program lists every pod of a cluster, keeps those whose name contains
`"database"` (ignoring case), reads the owning deployment's name off the pod's
`app` label and restarts that deployment by stamping the annotation
`kubectl.kubernetes.io/restartedAt` on its pod template.

Conventions of the embedding.

* Go strings are Lean `String`s, i.e. sequences of Unicode scalar values (valid
  UTF-8 only).
* A Go `map[string]string` is an association list read through its first
  binding of a key; a nil map is `none`.
* The Kubernetes client, the clock and the configuration loader are external to
  the program.  They are handlers over an arbitrary world state `σ`
  (`Cluster σ`), so every statement below holds for every behaviour of the
  cluster, in particular for every pattern of failures.
* The observable behaviour of a run is its list of `Event`s (every client call
  with the answer it got, every printed line) and its exit status.
-/

namespace Redeploy

/-! ## Go strings: `strings.ToLower`, `strings.ToUpper`, `strings.Contains` -/

/-- One row of Go's `unicode.CaseRanges`: the code points `Lo..Hi` and the
deltas to add to reach the upper, lower and title case. -/
structure CaseRange where
  Lo : Nat
  Hi : Nat
  DeltaUpper : Int
  DeltaLower : Int
  DeltaTitle : Int
  deriving DecidableEq, Repr

/-- Go `unicode.MaxRune`. -/
def MaxRune : Nat := 0x10FFFF

/-- Go `unicode.MaxASCII`. -/
def MaxASCII : Nat := 0x7F

/-- Go `unicode.UpperLower`: the delta marking an alternating Upper/Lower run. -/
def UpperLower : Int := MaxRune + 1

/-- Go `unicode.UpperCase`, `unicode.LowerCase`: indices into a delta triple. -/
def UpperCase : Nat := 0

/-- Go `unicode.LowerCase`. -/
def LowerCase : Nat := 1

/-- The rows of Go's `unicode.CaseRanges` for U+0041..U+017F (Basic Latin,
Latin-1 Supplement, Latin Extended-A), in table order.  The table of the Go
standard library goes on above U+017F; those rows are not reproduced, so a rune
above U+017F is left unchanged by this fragment. -/
def CaseRanges : List CaseRange :=
  [ ⟨0x0041, 0x005A, 0, 32, 0⟩,
    ⟨0x0061, 0x007A, -32, 0, -32⟩,
    ⟨0x00B5, 0x00B5, 743, 0, 743⟩,
    ⟨0x00C0, 0x00D6, 0, 32, 0⟩,
    ⟨0x00D8, 0x00DE, 0, 32, 0⟩,
    ⟨0x00E0, 0x00F6, -32, 0, -32⟩,
    ⟨0x00F8, 0x00FE, -32, 0, -32⟩,
    ⟨0x00FF, 0x00FF, 121, 0, 121⟩,
    ⟨0x0100, 0x012F, UpperLower, UpperLower, UpperLower⟩,
    ⟨0x0130, 0x0130, 0, -199, 0⟩,
    ⟨0x0131, 0x0131, -232, 0, -232⟩,
    ⟨0x0132, 0x0137, UpperLower, UpperLower, UpperLower⟩,
    ⟨0x0139, 0x0148, UpperLower, UpperLower, UpperLower⟩,
    ⟨0x014A, 0x0177, UpperLower, UpperLower, UpperLower⟩,
    ⟨0x0178, 0x0178, 0, -121, 0⟩,
    ⟨0x0179, 0x017E, UpperLower, UpperLower, UpperLower⟩,
    ⟨0x017F, 0x017F, -300, 0, -300⟩ ]

/-- The delta of a row for the case `case` (`Delta[_case]` in Go). -/
def CaseRange.delta (cr : CaseRange) (case : Nat) : Int :=
  if case = UpperCase then cr.DeltaUpper
  else if case = LowerCase then cr.DeltaLower
  else cr.DeltaTitle

/-- Go `unicode.MaxCase`: the number of cases. -/
def MaxCase : Nat := 3

/-- Go `unicode.ReplacementChar`. -/
def ReplacementChar : Nat := 0xFFFD

/-- The search of Go `unicode.to` through the table.  Go bisects the sorted,
disjoint table; the row it finds is the only row holding `r`, which this scan
finds as well.  In an alternating Upper/Lower run the low bit of the offset is
cleared and then set from the low bit of the case. -/
def searchCaseRanges (case : Nat) (r : Nat) : List CaseRange → Nat
  | [] => r
  | cr :: rest =>
    if cr.Lo ≤ r ∧ r ≤ cr.Hi then
      let delta := cr.delta case
      if delta > MaxRune then
        cr.Lo + ((r - cr.Lo) / 2 * 2 + case % 2)
      else
        ((r : Int) + delta).toNat
    else searchCaseRanges case r rest

/-- Go `unicode.To` on the table `caseRange` (`to` is a keyword of Lean, hence
the longer name): a case outside the three known ones yields the replacement
character, otherwise the table is searched. -/
def unicodeTo (case : Nat) (r : Nat) (caseRange : List CaseRange) : Nat :=
  if MaxCase ≤ case then ReplacementChar else searchCaseRanges case r caseRange

/-- Go `unicode.ToLower`: ASCII is handled directly, the rest by the table. -/
def unicodeToLower (r : Char) : Char :=
  if r.toNat ≤ MaxASCII then
    if 'A'.toNat ≤ r.toNat ∧ r.toNat ≤ 'Z'.toNat then Char.ofNat (r.toNat + ('a'.toNat - 'A'.toNat))
    else r
  else Char.ofNat (unicodeTo LowerCase r.toNat CaseRanges)

/-- Go `unicode.ToUpper`: ASCII is handled directly, the rest by the table. -/
def unicodeToUpper (r : Char) : Char :=
  if r.toNat ≤ MaxASCII then
    if 'a'.toNat ≤ r.toNat ∧ r.toNat ≤ 'z'.toNat then Char.ofNat (r.toNat - ('a'.toNat - 'A'.toNat))
    else r
  else Char.ofNat (unicodeTo UpperCase r.toNat CaseRanges)

/-- Go `strings.ToLower`: every rune mapped by `unicode.ToLower`. -/
def ToLower (s : String) : String := ⟨s.data.map unicodeToLower⟩

/-- Go `strings.ToUpper`: every rune mapped by `unicode.ToUpper`. -/
def ToUpper (s : String) : String := ⟨s.data.map unicodeToUpper⟩

/-- Does `substr` occur in `s` starting at some position (`strings.Index ≥ 0`)? -/
def containsRunes : List Char → List Char → Bool
  | [], substr => substr.isEmpty
  | c :: cs, substr => substr.isPrefixOf (c :: cs) || containsRunes cs substr

/-- Go `strings.Contains`. -/
def Contains (s substr : String) : Bool := containsRunes s.data substr.data

/-- Source `containsIgnoreCase` (redeploy.go, lines 53-57). -/
def containsIgnoreCase (s substr : String) : Bool :=
  let sLower := ToLower s
  let substrLower := ToLower substr
  Contains sLower substrLower

/-! ## Go maps -/

/-- A non-nil Go `map[string]string`: its entries.  The map sends a key to the
value of the first entry carrying it; `mapAssign` never creates a second entry
for a key. -/
abbrev GoMap := List (String × String)

/-- Go `v, ok := m[k]` on a non-nil map. -/
def entriesLookup : GoMap → String → Option String
  | [], _ => none
  | (k', v) :: rest, k => if k' = k then some v else entriesLookup rest k

/-- Go `v, ok := m[k]` on a map that may be nil: a nil map has no key. -/
def mapLookup (m : Option GoMap) (k : String) : Option String :=
  match m with
  | none => none
  | some entries => entriesLookup entries k

/-- Go `m[k]` as an expression: the zero value `""` when the key is missing,
also on a nil map. -/
def mapIndex (m : Option GoMap) (k : String) : String :=
  match mapLookup m k with
  | some v => v
  | none => ""

/-- Go `m[k] = v` on a non-nil map: overwrite the entry of `k`, or add one. -/
def mapAssign : GoMap → String → String → GoMap
  | [], k, v => [(k, v)]
  | (k', v') :: rest, k, v =>
    if k' = k then (k, v) :: rest else (k', v') :: mapAssign rest k v

/-! ## The Kubernetes objects the program reads and writes -/

/-- Go `error` values, identified by the text `err.Error()` that `%v` prints. -/
structure GoError where
  Error : String
  deriving DecidableEq, Repr

/-- The fields of `metav1.ObjectMeta` the embedding keeps. -/
structure ObjectMeta where
  Name : String
  Namespace : String
  ResourceVersion : String
  Labels : Option GoMap
  Annotations : Option GoMap
  deriving DecidableEq, Repr

/-- A `corev1.Pod`: its embedded metadata (`pod.Name`, `pod.Namespace`,
`pod.Labels`) and its phase. -/
structure Pod extends ObjectMeta where
  Phase : String
  deriving DecidableEq, Repr

/-- A `corev1.PodList`. -/
structure PodList where
  Items : List Pod
  deriving DecidableEq, Repr

/-- A `corev1.Container`. -/
structure Container where
  Name : String
  Image : String
  deriving DecidableEq, Repr

/-- A `corev1.PodSpec`. -/
structure PodSpec where
  Containers : List Container
  deriving DecidableEq, Repr

/-- A `corev1.PodTemplateSpec`: metadata (with the pod-template annotations)
and the pod spec. -/
structure PodTemplateSpec extends ObjectMeta where
  Spec : PodSpec
  deriving DecidableEq, Repr

/-- An `appsv1.DeploymentSpec`. -/
structure DeploymentSpec where
  Replicas : Option Int
  Selector : Option GoMap
  Template : PodTemplateSpec
  Paused : Bool
  deriving DecidableEq, Repr

/-- An `appsv1.DeploymentStatus`. -/
structure DeploymentStatus where
  ObservedGeneration : Int
  Replicas : Int
  deriving DecidableEq, Repr

/-- An `appsv1.Deployment`. -/
structure Deployment extends ObjectMeta where
  Spec : DeploymentSpec
  Status : DeploymentStatus
  deriving DecidableEq, Repr

/-- Go `deployment.DeepCopy()`.  Objects are values here, so the copy is the
object itself; aliasing with the client's cache cannot be expressed. -/
def Deployment.DeepCopy (d : Deployment) : Deployment := d

/-! ## The cluster, the events of a run -/

deriving instance DecidableEq for Except

/-- What the program consumes from outside: the kubeconfig loader, the clientset
constructor, the three client calls and the clock.  Each handler answers from
the current world state and yields the next one. -/
structure Cluster (σ : Type) where
  /-- `clientcmd.BuildConfigFromFlags("", "")`: the error, if any. -/
  BuildConfigFromFlags : σ → Option GoError × σ
  /-- `kubernetes.NewForConfig(config)`: the error, if any. -/
  NewForConfig : σ → Option GoError × σ
  /-- `clientset.CoreV1().Pods(metav1.NamespaceAll).List(...)`. -/
  ListPods : σ → Except GoError PodList × σ
  /-- `clientset.AppsV1().Deployments(namespace).Get(ctx, name, ...)`. -/
  GetDeployment : String → String → σ → Except GoError Deployment × σ
  /-- `clientset.AppsV1().Deployments(namespace).Update(ctx, obj, ...)`. -/
  UpdateDeployment : String → Deployment → σ → Except GoError Deployment × σ
  /-- `time.Now().Format(time.RFC3339)`: the current time as a string. -/
  Now : σ → String × σ

/-- One observable step of a run: a client call with its answer, or a line
written by `fmt.Printf` (`stdout`) or by `log.Printf` / `log.Fatalf` (`log`). -/
inductive Event where
  | stdout (line : String)
  | log (line : String)
  | list (answer : Except GoError PodList)
  | get (ns name : String) (answer : Except GoError Deployment)
  | update (ns : String) (obj : Deployment) (answer : Except GoError Deployment)
  deriving DecidableEq

/-! ## `restartDeployment` -/

/-- The annotation key written by `restartDeployment`. -/
def restartedAtKey : String := "kubectl.kubernetes.io/restartedAt"

/-- Source `restartDeployment`, lines 68-72: copy the fetched deployment, make
the pod-template annotation map if it is nil, assign the restart key. -/
def restartMutation (deployment : Deployment) (now : String) : Deployment :=
  let newDeployment := deployment.DeepCopy
  let annotations : GoMap :=
    match newDeployment.Spec.Template.Annotations with
    | none => []
    | some m => m
  { newDeployment with
    Spec := { newDeployment.Spec with
      Template := { newDeployment.Spec.Template with
        Annotations := some (mapAssign annotations restartedAtKey now) } } }

/-- Source `restartDeployment` (redeploy.go, lines 60-81): the returned error
(`none` for `nil`), the client calls made, and the next world state. -/
def restartDeployment {σ : Type} (clientset : Cluster σ) (ns name : String) (w : σ) :
    Option GoError × List Event × σ :=
  match clientset.GetDeployment ns name w with
  | (.error err, w1) => (some err, [Event.get ns name (.error err)], w1)
  | (.ok deployment, w1) =>
    match clientset.Now w1 with
    | (now, w2) =>
      let newDeployment := restartMutation deployment now
      match clientset.UpdateDeployment ns newDeployment w2 with
      | (.error err, w3) =>
        (some err,
          [Event.get ns name (.ok deployment),
           Event.update ns newDeployment (.error err)], w3)
      | (.ok updated, w3) =>
        (none,
          [Event.get ns name (.ok deployment),
           Event.update ns newDeployment (.ok updated)], w3)

/-! ## `main` -/

/-- The line `fmt.Printf("Found pod: %s/%s\n", ...)`. -/
def foundPodLine (ns name : String) : String :=
  "Found pod: " ++ ns ++ "/" ++ name ++ "\n"

/-- The line `fmt.Printf("Redeploying associated deployment: %s/%s\n", ...)`. -/
def redeployingLine (ns deploymentName : String) : String :=
  "Redeploying associated deployment: " ++ ns ++ "/" ++ deploymentName ++ "\n"

/-- The line `log.Printf("Failed to restart deployment %s/%s: %v", ...)`. -/
def failedLine (ns deploymentName : String) (err : GoError) : String :=
  "Failed to restart deployment " ++ ns ++ "/" ++ deploymentName ++ ": " ++ err.Error

/-- The line `log.Printf("Pod %s/%s does not have an associated deployment", ...)`. -/
def skipLine (ns name : String) : String :=
  "Pod " ++ ns ++ "/" ++ name ++ " does not have an associated deployment"

/-- Source `main`, lines 35-48: the body of the loop for one pod. -/
def loopBody {σ : Type} (clientset : Cluster σ) (pod : Pod) (w : σ) : List Event × σ :=
  if containsIgnoreCase pod.Name "database" then
    let deploymentName := mapIndex pod.Labels "app"
    if deploymentName ≠ "" then
      match restartDeployment clientset pod.Namespace deploymentName w with
      | (some err, calls, w1) =>
        ([Event.stdout (foundPodLine pod.Namespace pod.Name),
          Event.stdout (redeployingLine pod.Namespace deploymentName)]
          ++ calls ++ [Event.log (failedLine pod.Namespace deploymentName err)], w1)
      | (none, calls, w1) =>
        ([Event.stdout (foundPodLine pod.Namespace pod.Name),
          Event.stdout (redeployingLine pod.Namespace deploymentName)]
          ++ calls, w1)
    else
      ([Event.stdout (foundPodLine pod.Namespace pod.Name),
        Event.log (skipLine pod.Namespace pod.Name)], w)
  else ([], w)

/-- Source `main`, line 34: `for _, pod := range pods.Items`. -/
def mainLoop {σ : Type} (clientset : Cluster σ) : List Pod → σ → List Event × σ
  | [], w => ([], w)
  | pod :: rest, w =>
    match loopBody clientset pod w with
    | (events, w1) =>
      match mainLoop clientset rest w1 with
      | (later, w2) => (events ++ later, w2)

/-- The outcome of a run of the program. -/
structure Run (σ : Type) where
  /-- Exit status of the process: 0 when `main` returns, 1 after `log.Fatalf`. -/
  exit : Nat
  /-- The events of the run, in order. -/
  trace : List Event
  /-- The world state the run leaves. -/
  world : σ

/-- Source `main` (redeploy.go, lines 15-50). -/
def main {σ : Type} (cluster : Cluster σ) (w : σ) : Run σ :=
  match cluster.BuildConfigFromFlags w with
  | (some err, w1) => ⟨1, [Event.log ("error building kubeconfig: " ++ err.Error)], w1⟩
  | (none, w1) =>
    match cluster.NewForConfig w1 with
    | (some err, w2) =>
      ⟨1, [Event.log ("error creating Kubernetes clientset: " ++ err.Error)], w2⟩
    | (none, w2) =>
      match cluster.ListPods w2 with
      | (.error err, w3) =>
        ⟨1, [Event.list (.error err), Event.log ("error listing pods: " ++ err.Error)], w3⟩
      | (.ok pods, w3) =>
        match mainLoop cluster pods.Items w3 with
        | (events, w4) => ⟨0, Event.list (.ok pods) :: events, w4⟩

/-! ## Observations on the events of a run -/

/-- The `(namespace, name)` arguments of the Get calls of a trace, in order.
`restartDeployment` starts with exactly one Get on its own arguments, so these
are the invocations of `restartDeployment`. -/
def restartCalls : List Event → List (String × String)
  | [] => []
  | Event.get ns name _ :: rest => (ns, name) :: restartCalls rest
  | _ :: rest => restartCalls rest

/-- The objects submitted to Update in a trace, in order. -/
def submitted : List Event → List Deployment
  | [] => []
  | Event.update _ obj _ :: rest => obj :: submitted rest
  | _ :: rest => submitted rest

/-- The lines written through the `log` package in a trace, in order. -/
def logLines : List Event → List String
  | [] => []
  | Event.log line :: rest => line :: logLines rest
  | _ :: rest => logLines rest

/-- The restarts of a trace that failed, with their cause: a Get answered by an
error, or a Get answered by an object followed by an Update answered by an
error. -/
def restartFailures : List Event → List (String × String × GoError)
  | [] => []
  | Event.get ns name (.error err) :: rest => (ns, name, err) :: restartFailures rest
  | Event.get ns name (.ok _) :: Event.update _ _ (.error err) :: rest =>
    (ns, name, err) :: restartFailures rest
  | _ :: rest => restartFailures rest

/-- Go `strings.HasPrefix` on the runes of two strings. -/
def HasPrefix (s pre : String) : Bool := pre.data.isPrefixOf s.data

/-- The log lines of a trace that report a failed restart. -/
def failureLogLines (trace : List Event) : List String :=
  (logLines trace).filter (fun line => HasPrefix line "Failed to restart deployment ")

/-- The deployment the loop restarts for a pod, if any: the pod's namespace and
its `app` label, when the name contains "database" (ignoring case) and the
label is not empty. -/
def restartTarget (pod : Pod) : Option (String × String) :=
  if containsIgnoreCase pod.Name "database" = true ∧ mapIndex pod.Labels "app" ≠ "" then
    some (pod.Namespace, mapIndex pod.Labels "app")
  else none

/-! ## Example clusters, used for concrete instances -/

/-- An in-memory cluster state: the pods, the stored deployments, a clock. -/
structure MemWorld where
  pods : List Pod
  deployments : List Deployment
  clock : List String
  deriving DecidableEq

/-- Replace the stored deployment of the same namespace and name by `obj`. -/
def storeReplace (obj : Deployment) : List Deployment → List Deployment
  | [] => []
  | d :: rest =>
    if d.Namespace = obj.Namespace ∧ d.Name = obj.Name then obj :: rest
    else d :: storeReplace obj rest

/-- An in-memory cluster: Get finds a stored deployment or answers "not
found", Update overwrites a stored deployment or answers "not found", the
clock hands out its strings one by one. -/
def memCluster : Cluster MemWorld where
  BuildConfigFromFlags w := (none, w)
  NewForConfig w := (none, w)
  ListPods w := (.ok ⟨w.pods⟩, w)
  GetDeployment ns name w :=
    match w.deployments.find? (fun d => d.Namespace = ns ∧ d.Name = name) with
    | some d => (.ok d, w)
    | none => (.error ⟨"not found"⟩, w)
  UpdateDeployment ns obj w :=
    match w.deployments.find? (fun d => d.Namespace = ns ∧ d.Name = obj.Name) with
    | some _ => (.ok obj, { w with deployments := storeReplace obj w.deployments })
    | none => (.error ⟨"not found"⟩, w)
  Now w :=
    match w.clock with
    | [] => ("", w)
    | t :: later => (t, { w with clock := later })

/-- The in-memory cluster with an API server that refuses every list request. -/
def unreachableCluster : Cluster MemWorld :=
  { memCluster with ListPods := fun w => (.error ⟨"connection refused"⟩, w) }

/-- A pod with the given namespace, name and labels. -/
def mkPod (ns name : String) (labels : Option GoMap) : Pod :=
  { Name := name, Namespace := ns, ResourceVersion := "1", Labels := labels,
    Annotations := none, Phase := "Running" }

/-- A deployment with the given namespace, name and pod-template annotations. -/
def mkDeployment (ns name : String) (annotations : Option GoMap) : Deployment :=
  { Name := name, Namespace := ns, ResourceVersion := "7", Labels := none, Annotations := none,
    Spec :=
      { Replicas := some 3, Selector := some [("app", name)], Paused := false,
        Template :=
          { Name := "", Namespace := "", ResourceVersion := "", Labels := some [("app", name)],
            Annotations := annotations,
            Spec := { Containers := [⟨"db", "postgres:16"⟩] } } },
    Status := { ObservedGeneration := 1, Replicas := 3 } }

/-- The two instances of the first end-to-end scenario. -/
def scenarioPods : List Pod :=
  [mkPod "prod" "database-0" (some [("app", "database-svc")]),
   mkPod "prod" "frontend-0" (some [("app", "frontend-svc")])]

/-- The world of the first end-to-end scenario. -/
def scenarioWorld : MemWorld :=
  { pods := scenarioPods,
    deployments := [mkDeployment "prod" "database-svc" (some [("team", "data")]),
                    mkDeployment "prod" "frontend-svc" none],
    clock := ["2024-05-01T10:00:00Z", "2024-05-01T10:00:01Z"] }

/-- A world whose first matching pod points at a deployment that does not exist. -/
def failingWorld : MemWorld :=
  { pods := [mkPod "prod" "database-0" (some [("app", "cache-svc")]),
             mkPod "dev" "database-test" (some []),
             mkPod "prod" "Database-1" (some [("app", "database-svc")])],
    deployments := [mkDeployment "prod" "database-svc" none],
    clock := ["2024-05-01T10:00:00Z"] }

/-- The world of the scenario with one matching pod that has no labels. -/
def unlabelledWorld : MemWorld :=
  { pods := [mkPod "dev" "database-test" (some [])],
    deployments := [],
    clock := [] }

/-! ## Lemmas on maps -/

theorem entriesLookup_mapAssign_self (m : GoMap) (k v : String) :
    entriesLookup (mapAssign m k v) k = some v := by
  induction m with
  | nil => simp [mapAssign, entriesLookup]
  | cons e rest ih =>
    obtain ⟨k', v'⟩ := e
    by_cases h : k' = k
    · simp [mapAssign, entriesLookup, h]
    · simp [mapAssign, entriesLookup, h, ih]

theorem entriesLookup_mapAssign_ne (m : GoMap) (k v k2 : String) (hne : k2 ≠ k) :
    entriesLookup (mapAssign m k v) k2 = entriesLookup m k2 := by
  induction m with
  | nil => simp [mapAssign, entriesLookup, Ne.symm hne]
  | cons e rest ih =>
    obtain ⟨k', v'⟩ := e
    by_cases h : k' = k
    · subst h
      simp [mapAssign, entriesLookup, Ne.symm hne]
    · by_cases h2 : k' = k2
      · subst h2
        simp [mapAssign, entriesLookup, hne]
      · simp [mapAssign, entriesLookup, h, h2, ih]

theorem mapAssign_mapAssign (m : GoMap) (k v1 v2 : String) :
    mapAssign (mapAssign m k v1) k v2 = mapAssign m k v2 := by
  induction m with
  | nil => simp [mapAssign]
  | cons e rest ih =>
    obtain ⟨k', v'⟩ := e
    by_cases h : k' = k
    · simp [mapAssign, h]
    · simp [mapAssign, h, ih]

theorem restartMutation_annotations (d : Deployment) (now : String) :
    (restartMutation d now).Spec.Template.Annotations =
      some (mapAssign (match d.Spec.Template.Annotations with | none => [] | some m => m)
        restartedAtKey now) := rfl

theorem mapLookup_restartMutation_self (d : Deployment) (now : String) :
    mapLookup (restartMutation d now).Spec.Template.Annotations restartedAtKey = some now := by
  rw [restartMutation_annotations]
  exact entriesLookup_mapAssign_self _ _ _

theorem mapLookup_restartMutation_ne (d : Deployment) (now k : String) (hne : k ≠ restartedAtKey) :
    mapLookup (restartMutation d now).Spec.Template.Annotations k =
      mapLookup d.Spec.Template.Annotations k := by
  rw [restartMutation_annotations]
  simp only [mapLookup]
  rw [entriesLookup_mapAssign_ne _ _ _ _ hne]
  cases d.Spec.Template.Annotations <;> simp [entriesLookup]

theorem restartMutation_twice (d : Deployment) (t1 t2 : String) :
    restartMutation (restartMutation d t1) t2 = restartMutation d t2 := by
  simp only [restartMutation, Deployment.DeepCopy, mapAssign_mapAssign]

theorem restartDeployment_of_get_ok {σ : Type} (c : Cluster σ) (ns name : String) (w w1 : σ)
    (d : Deployment) (hget : c.GetDeployment ns name w = (.ok d, w1)) :
    restartDeployment c ns name w =
      ((match (c.UpdateDeployment ns (restartMutation d (c.Now w1).1) (c.Now w1).2).1 with
          | .error err => some err
          | .ok _ => none),
        [Event.get ns name (.ok d),
         Event.update ns (restartMutation d (c.Now w1).1)
           (c.UpdateDeployment ns (restartMutation d (c.Now w1).1) (c.Now w1).2).1],
        (c.UpdateDeployment ns (restartMutation d (c.Now w1).1) (c.Now w1).2).2) := by
  unfold restartDeployment
  rw [hget]
  simp only
  rcases hu : c.UpdateDeployment ns (restartMutation d (c.Now w1).1) (c.Now w1).2 with ⟨a, w3⟩
  cases a <;> simp

theorem restartDeployment_of_get_error {σ : Type} (c : Cluster σ) (ns name : String) (w w1 : σ)
    (err : GoError) (hget : c.GetDeployment ns name w = (.error err, w1)) :
    restartDeployment c ns name w = (some err, [Event.get ns name (.error err)], w1) := by
  unfold restartDeployment
  rw [hget]

/-- C1: when `restartDeployment` fetches a deployment `d`, it submits exactly one
object to Update (accepted or not); in that object the pod-template annotation
`kubectl.kubernetes.io/restartedAt` holds the current time string, and every
other annotation key reads exactly as in `d`: present with the same value, or
absent as before. -/
theorem restartDeployment_stamps_and_preserves {σ : Type} (c : Cluster σ) (ns name : String)
    (w w1 : σ) (d : Deployment) (hget : c.GetDeployment ns name w = (.ok d, w1)) :
    ∃ obj, submitted (restartDeployment c ns name w).2.1 = [obj] ∧
      mapLookup obj.Spec.Template.Annotations restartedAtKey = some (c.Now w1).1 ∧
      ∀ k, k ≠ restartedAtKey →
        mapLookup obj.Spec.Template.Annotations k = mapLookup d.Spec.Template.Annotations k := by
  refine ⟨restartMutation d (c.Now w1).1, ?_, ?_, ?_⟩
  · rw [restartDeployment_of_get_ok c ns name w w1 d hget]
    simp [submitted]
  · exact mapLookup_restartMutation_self d _
  · intro k hk
    exact mapLookup_restartMutation_ne d _ k hk

theorem restartDeployment_stamps_and_preserves_witness :
    memCluster.GetDeployment "prod" "database-svc" scenarioWorld =
        (.ok (mkDeployment "prod" "database-svc" (some [("team", "data")])), scenarioWorld) ∧
      ∃ obj, submitted (restartDeployment memCluster "prod" "database-svc" scenarioWorld).2.1 = [obj] ∧
        mapLookup obj.Spec.Template.Annotations restartedAtKey =
          some (memCluster.Now scenarioWorld).1 ∧
        ∀ k, k ≠ restartedAtKey →
          mapLookup obj.Spec.Template.Annotations k =
            mapLookup (mkDeployment "prod" "database-svc"
              (some [("team", "data")])).Spec.Template.Annotations k :=
  ⟨by decide,
    restartDeployment_stamps_and_preserves memCluster "prod" "database-svc" scenarioWorld
      scenarioWorld _ (by decide)⟩

/-- C2: when the fetched deployment has a nil pod-template annotation map,
`restartDeployment` submits one object whose pod-template annotation map exists
and has exactly one entry: the restart key with the current time string; when
the update is accepted the call returns no error. -/
theorem restartDeployment_nil_annotations {σ : Type} (c : Cluster σ) (ns name : String)
    (w w1 : σ) (d : Deployment) (hget : c.GetDeployment ns name w = (.ok d, w1))
    (hnil : d.Spec.Template.Annotations = none) :
    ∃ obj, submitted (restartDeployment c ns name w).2.1 = [obj] ∧
      obj.Spec.Template.Annotations = some [(restartedAtKey, (c.Now w1).1)] ∧
      (∀ u w3, c.UpdateDeployment ns obj (c.Now w1).2 = (.ok u, w3) →
        (restartDeployment c ns name w).1 = none) := by
  refine ⟨restartMutation d (c.Now w1).1, ?_, ?_, ?_⟩
  · rw [restartDeployment_of_get_ok c ns name w w1 d hget]
    simp [submitted]
  · rw [restartMutation_annotations, hnil]
    rfl
  · intro u w3 hu
    rw [restartDeployment_of_get_ok c ns name w w1 d hget, hu]

theorem restartDeployment_nil_annotations_witness :
    memCluster.GetDeployment "prod" "frontend-svc" scenarioWorld =
        (.ok (mkDeployment "prod" "frontend-svc" none), scenarioWorld) ∧
      (mkDeployment "prod" "frontend-svc" none).Spec.Template.Annotations = none ∧
      ∃ obj, submitted (restartDeployment memCluster "prod" "frontend-svc" scenarioWorld).2.1 = [obj] ∧
        obj.Spec.Template.Annotations =
          some [(restartedAtKey, (memCluster.Now scenarioWorld).1)] ∧
        (∀ u w3, memCluster.UpdateDeployment "prod" obj (memCluster.Now scenarioWorld).2 = (.ok u, w3) →
          (restartDeployment memCluster "prod" "frontend-svc" scenarioWorld).1 = none) :=
  ⟨by decide, by decide,
    restartDeployment_nil_annotations memCluster "prod" "frontend-svc" scenarioWorld
      scenarioWorld (mkDeployment "prod" "frontend-svc" none) (by decide) (by decide)⟩

/-- C3: restart twice, last write wins.  If a first call fetches `d` at time `t1`
and a second call fetches what the first one submitted, at time `t2`, then the
second call submits exactly what one restart of `d` at time `t2` submits: the
restart annotation holds `t2`, every other annotation key reads as in `d`, and
every field outside the pod-template annotation map equals the field of `d`. -/
theorem restartDeployment_twice_last_write_wins {σ : Type} (c : Cluster σ) (ns name : String)
    (w w1 w' w1' : σ) (d : Deployment) (t1 t2 : String)
    (hget1 : c.GetDeployment ns name w = (.ok d, w1)) (hnow1 : (c.Now w1).1 = t1)
    (hget2 : c.GetDeployment ns name w' = (.ok (restartMutation d t1), w1'))
    (hnow2 : (c.Now w1').1 = t2) :
    submitted (restartDeployment c ns name w).2.1 = [restartMutation d t1] ∧
    ∃ obj, submitted (restartDeployment c ns name w').2.1 = [obj] ∧
      obj = restartMutation d t2 ∧
      mapLookup obj.Spec.Template.Annotations restartedAtKey = some t2 ∧
      (∀ k, k ≠ restartedAtKey →
        mapLookup obj.Spec.Template.Annotations k = mapLookup d.Spec.Template.Annotations k) ∧
      obj = { d with
        Spec := { d.Spec with
          Template := { d.Spec.Template with
            Annotations := obj.Spec.Template.Annotations } } } := by
  refine ⟨?_, restartMutation d t2, ?_, rfl, ?_, ?_, rfl⟩
  · rw [restartDeployment_of_get_ok c ns name w w1 d hget1, hnow1]
    simp [submitted]
  · rw [restartDeployment_of_get_ok c ns name w' w1' _ hget2, hnow2, restartMutation_twice]
    simp [submitted]
  · exact mapLookup_restartMutation_self d t2
  · intro k hk
    exact mapLookup_restartMutation_ne d t2 k hk

theorem restartDeployment_twice_last_write_wins_witness :
    submitted (restartDeployment memCluster "prod" "database-svc" scenarioWorld).2.1 =
        [restartMutation (mkDeployment "prod" "database-svc" (some [("team", "data")]))
          "2024-05-01T10:00:00Z"] ∧
    ∃ obj,
      submitted (restartDeployment memCluster "prod" "database-svc"
        (restartDeployment memCluster "prod" "database-svc" scenarioWorld).2.2).2.1 = [obj] ∧
      obj = restartMutation (mkDeployment "prod" "database-svc" (some [("team", "data")]))
        "2024-05-01T10:00:01Z" ∧
      mapLookup obj.Spec.Template.Annotations restartedAtKey = some "2024-05-01T10:00:01Z" ∧
      (∀ k, k ≠ restartedAtKey →
        mapLookup obj.Spec.Template.Annotations k =
          mapLookup (mkDeployment "prod" "database-svc"
            (some [("team", "data")])).Spec.Template.Annotations k) ∧
      obj = { mkDeployment "prod" "database-svc" (some [("team", "data")]) with
        Spec := { (mkDeployment "prod" "database-svc" (some [("team", "data")])).Spec with
          Template := { (mkDeployment "prod" "database-svc"
              (some [("team", "data")])).Spec.Template with
            Annotations := obj.Spec.Template.Annotations } } } :=
  restartDeployment_twice_last_write_wins memCluster "prod" "database-svc"
    scenarioWorld scenarioWorld
    (restartDeployment memCluster "prod" "database-svc" scenarioWorld).2.2
    (restartDeployment memCluster "prod" "database-svc" scenarioWorld).2.2
    (mkDeployment "prod" "database-svc" (some [("team", "data")]))
    "2024-05-01T10:00:00Z" "2024-05-01T10:00:01Z"
    (by decide) (by decide) (by decide) (by decide)

/-- C9: `restartDeployment` makes exactly one Get and at most one Update.  If Get
fails it returns that error and submits nothing; if Get succeeds and Update
fails it returns the Update error after that single Update; it returns no error
exactly when both Get and Update succeed. -/
theorem restartDeployment_single_attempt {σ : Type} (c : Cluster σ) (ns name : String) (w : σ) :
    (restartCalls (restartDeployment c ns name w).2.1).length = 1 ∧
    (submitted (restartDeployment c ns name w).2.1).length ≤ 1 ∧
    (∀ err w1, c.GetDeployment ns name w = (.error err, w1) →
      restartDeployment c ns name w = (some err, [Event.get ns name (.error err)], w1)) ∧
    (∀ d w1 err w3, c.GetDeployment ns name w = (.ok d, w1) →
      c.UpdateDeployment ns (restartMutation d (c.Now w1).1) (c.Now w1).2 = (.error err, w3) →
      restartDeployment c ns name w =
        (some err,
          [Event.get ns name (.ok d),
           Event.update ns (restartMutation d (c.Now w1).1) (.error err)], w3)) ∧
    ((restartDeployment c ns name w).1 = none ↔
      ∃ d w1 u w3, c.GetDeployment ns name w = (.ok d, w1) ∧
        c.UpdateDeployment ns (restartMutation d (c.Now w1).1) (c.Now w1).2 = (.ok u, w3)) := by
  rcases hget : c.GetDeployment ns name w with ⟨answer, w1⟩
  cases answer with
  | error e =>
    rw [restartDeployment_of_get_error c ns name w w1 e hget]
    simp [restartCalls, submitted]
  | ok d =>
    rw [restartDeployment_of_get_ok c ns name w w1 d hget]
    rcases hupd : c.UpdateDeployment ns (restartMutation d (c.Now w1).1) (c.Now w1).2
      with ⟨answer, w3⟩
    cases answer with
    | error e =>
      simp only [restartCalls, submitted, List.length_cons, List.length_nil, zero_add,
        le_refl, true_and]
      refine ⟨fun err w1' h => ?_, fun d1 w1' err w3' h1 h2 => ?_, ?_⟩
      · simp at h
      · simp only [Prod.mk.injEq, Except.ok.injEq] at h1
        obtain ⟨hd, hw⟩ := h1
        subst hd hw
        rw [hupd] at h2
        simp only [Prod.mk.injEq, Except.error.injEq] at h2
        obtain ⟨he, hw3⟩ := h2
        subst he hw3
        rfl
      · constructor
        · intro h
          simp at h
        · rintro ⟨d1, w1', u, w3', h1, h2⟩
          simp only [Prod.mk.injEq, Except.ok.injEq] at h1
          obtain ⟨hd, hw⟩ := h1
          subst hd hw
          rw [hupd] at h2
          simp at h2
    | ok u =>
      simp only [restartCalls, submitted, List.length_cons, List.length_nil, zero_add,
        le_refl, true_and]
      refine ⟨fun err w1' h => ?_, fun d1 w1' err w3' h1 h2 => ?_, ?_⟩
      · simp at h
      · simp only [Prod.mk.injEq, Except.ok.injEq] at h1
        obtain ⟨hd, hw⟩ := h1
        subst hd hw
        rw [hupd] at h2
        simp at h2
      · constructor
        · intro _
          exact ⟨d, w1, u, w3, rfl, hupd⟩
        · intro _
          trivial

theorem restartDeployment_single_attempt_witness :
    restartDeployment memCluster "prod" "cache-svc" scenarioWorld =
      (some ⟨"not found"⟩, [Event.get "prod" "cache-svc" (.error ⟨"not found"⟩)], scenarioWorld) :=
  (restartDeployment_single_attempt memCluster "prod" "cache-svc" scenarioWorld).2.2.1
    ⟨"not found"⟩ scenarioWorld (by decide)

/-! ## Lemmas on the loop -/

theorem hasPrefix_failedLine (ns name : String) (err : GoError) :
    HasPrefix (failedLine ns name err) "Failed to restart deployment " = true := by
  simp only [HasPrefix, failedLine, String.data_append, List.append_assoc,
    List.isPrefixOf_iff_prefix]
  exact List.prefix_append _ _

theorem hasPrefix_skipLine (ns name : String) :
    HasPrefix (skipLine ns name) "Failed to restart deployment " = false := by
  have h1 : ("Pod " : String).data = ['P', 'o', 'd', ' '] := rfl
  have h2 : ("Failed to restart deployment " : String).data =
      'F' :: ("ailed to restart deployment " : String).data := rfl
  simp only [HasPrefix, skipLine, String.data_append, List.append_assoc, h1, h2,
    List.cons_append, List.isPrefixOf]
  simp

theorem restartCalls_append (a b : List Event) :
    restartCalls (a ++ b) = restartCalls a ++ restartCalls b := by
  induction a with
  | nil => rfl
  | cons e rest ih => cases e <;> simp [restartCalls, ih]

theorem submitted_append (a b : List Event) :
    submitted (a ++ b) = submitted a ++ submitted b := by
  induction a with
  | nil => rfl
  | cons e rest ih => cases e <;> simp [submitted, ih]

theorem logLines_append (a b : List Event) :
    logLines (a ++ b) = logLines a ++ logLines b := by
  induction a with
  | nil => rfl
  | cons e rest ih => cases e <;> simp [logLines, ih]

theorem mainLoop_cons {σ : Type} (c : Cluster σ) (pod : Pod) (rest : List Pod) (w : σ) :
    mainLoop c (pod :: rest) w =
      ((loopBody c pod w).1 ++ (mainLoop c rest (loopBody c pod w).2).1,
        (mainLoop c rest (loopBody c pod w).2).2) := rfl

/-- The five shapes of one iteration of the loop. -/
theorem loopBody_cases {σ : Type} (c : Cluster σ) (pod : Pod) (w : σ) :
    (containsIgnoreCase pod.Name "database" = false ∧ loopBody c pod w = ([], w)) ∨
    (containsIgnoreCase pod.Name "database" = true ∧ mapIndex pod.Labels "app" = "" ∧
      loopBody c pod w =
        ([Event.stdout (foundPodLine pod.Namespace pod.Name),
          Event.log (skipLine pod.Namespace pod.Name)], w)) ∨
    (containsIgnoreCase pod.Name "database" = true ∧ mapIndex pod.Labels "app" ≠ "" ∧
      ∃ err w1, loopBody c pod w =
        ([Event.stdout (foundPodLine pod.Namespace pod.Name),
          Event.stdout (redeployingLine pod.Namespace (mapIndex pod.Labels "app")),
          Event.get pod.Namespace (mapIndex pod.Labels "app") (.error err),
          Event.log (failedLine pod.Namespace (mapIndex pod.Labels "app") err)], w1)) ∨
    (containsIgnoreCase pod.Name "database" = true ∧ mapIndex pod.Labels "app" ≠ "" ∧
      ∃ d obj err w1, loopBody c pod w =
        ([Event.stdout (foundPodLine pod.Namespace pod.Name),
          Event.stdout (redeployingLine pod.Namespace (mapIndex pod.Labels "app")),
          Event.get pod.Namespace (mapIndex pod.Labels "app") (.ok d),
          Event.update pod.Namespace obj (.error err),
          Event.log (failedLine pod.Namespace (mapIndex pod.Labels "app") err)], w1)) ∨
    (containsIgnoreCase pod.Name "database" = true ∧ mapIndex pod.Labels "app" ≠ "" ∧
      ∃ d obj u w1, loopBody c pod w =
        ([Event.stdout (foundPodLine pod.Namespace pod.Name),
          Event.stdout (redeployingLine pod.Namespace (mapIndex pod.Labels "app")),
          Event.get pod.Namespace (mapIndex pod.Labels "app") (.ok d),
          Event.update pod.Namespace obj (.ok u)], w1)) := by
  by_cases hm : containsIgnoreCase pod.Name "database" = true
  · by_cases hl : mapIndex pod.Labels "app" = ""
    · right; left
      refine ⟨hm, hl, ?_⟩
      simp [loopBody, hm, hl]
    · right; right
      rcases hget : c.GetDeployment pod.Namespace (mapIndex pod.Labels "app") w with ⟨answer, w1⟩
      cases answer with
      | error e =>
        left
        refine ⟨hm, hl, e, w1, ?_⟩
        simp [loopBody, hm, hl, restartDeployment_of_get_error c _ _ w w1 e hget]
      | ok d =>
        right
        have hr := restartDeployment_of_get_ok c _ _ w w1 d hget
        rcases hupd : c.UpdateDeployment pod.Namespace
          (restartMutation d (c.Now w1).1) (c.Now w1).2 with ⟨answer, w3⟩
        rw [hupd] at hr
        cases answer with
        | error e =>
          left
          refine ⟨hm, hl, d, restartMutation d (c.Now w1).1, e, w3, ?_⟩
          simp [loopBody, hm, hl, hr]
        | ok u =>
          right
          refine ⟨hm, hl, d, restartMutation d (c.Now w1).1, u, w3, ?_⟩
          simp [loopBody, hm, hl, hr]
  · left
    simp only [Bool.not_eq_true] at hm
    refine ⟨hm, ?_⟩
    simp [loopBody, hm]

theorem restartCalls_mainLoop {σ : Type} (c : Cluster σ) (pods : List Pod) (w : σ) :
    restartCalls (mainLoop c pods w).1 = pods.filterMap restartTarget := by
  induction pods generalizing w with
  | nil => rfl
  | cons pod rest ih =>
    rw [mainLoop_cons]
    simp only [restartCalls_append, ih]
    rcases loopBody_cases c pod w with ⟨hm, hb⟩ | ⟨hm, hl, hb⟩ | ⟨hm, hl, e, w1, hb⟩ |
        ⟨hm, hl, d, obj, e, w1, hb⟩ | ⟨hm, hl, d, obj, u, w1, hb⟩
    · simp [hb, restartCalls, restartTarget, hm, List.filterMap_cons]
    · simp [hb, restartCalls, restartTarget, hm, hl, List.filterMap_cons]
    · simp [hb, restartCalls, restartTarget, hm, hl, List.filterMap_cons]
    · simp [hb, restartCalls, restartTarget, hm, hl, List.filterMap_cons]
    · simp [hb, restartCalls, restartTarget, hm, hl, List.filterMap_cons]

theorem failureLogLines_mainLoop {σ : Type} (c : Cluster σ) (pods : List Pod) (w : σ) :
    failureLogLines (mainLoop c pods w).1 =
      (restartFailures (mainLoop c pods w).1).map
        (fun failure => failedLine failure.1 failure.2.1 failure.2.2) := by
  induction pods generalizing w with
  | nil => rfl
  | cons pod rest ih =>
    rw [mainLoop_cons]
    have ih' := ih (loopBody c pod w).2
    simp only [failureLogLines] at ih' ⊢
    rcases loopBody_cases c pod w with ⟨hm, hb⟩ | ⟨hm, hl, hb⟩ | ⟨hm, hl, e, w1, hb⟩ |
        ⟨hm, hl, d, obj, e, w1, hb⟩ | ⟨hm, hl, d, obj, u, w1, hb⟩ <;>
      rw [hb] at ih' ⊢ <;>
      simp [logLines, restartFailures, hasPrefix_failedLine, hasPrefix_skipLine, ih']

theorem main_of_list_ok {σ : Type} (c : Cluster σ) (w w1 w2 w3 : σ) (pods : PodList)
    (hconfig : c.BuildConfigFromFlags w = (none, w1)) (hclient : c.NewForConfig w1 = (none, w2))
    (hlist : c.ListPods w2 = (.ok pods, w3)) :
    (main c w).exit = 0 ∧
      (main c w).trace = Event.list (.ok pods) :: (mainLoop c pods.Items w3).1 := by
  simp [main, hconfig, hclient, hlist]

theorem mapIndex_eq_empty_iff (m : Option GoMap) (k : String) :
    mapIndex m k = "" ↔ ¬ ∃ v, mapLookup m k = some v ∧ v ≠ "" := by
  unfold mapIndex
  cases h : mapLookup m k <;> simp

theorem mapIndex_of_lookup (m : Option GoMap) (k v : String) (h : mapLookup m k = some v) :
    mapIndex m k = v := by
  simp [mapIndex, h]

/-- C4: for a pod the loop has matched, the owner resolution of `main` is absent
(the iteration only prints the "found" line and logs the skip) if and only if
the label map, nil included, has no `app` key with a non-empty value; when the
`app` label has a non-empty value `v`, the resolved name `pod.Labels["app"]` is
exactly `v` and the iteration restarts the deployment `v` of the pod's
namespace. -/
theorem owner_resolution {σ : Type} (c : Cluster σ) (pod : Pod) (w : σ)
    (hmatch : containsIgnoreCase pod.Name "database" = true) :
    ((loopBody c pod w).1 =
        [Event.stdout (foundPodLine pod.Namespace pod.Name),
         Event.log (skipLine pod.Namespace pod.Name)] ↔
      ¬ ∃ v, mapLookup pod.Labels "app" = some v ∧ v ≠ "") ∧
    (mapIndex pod.Labels "app" = "" ↔ ¬ ∃ v, mapLookup pod.Labels "app" = some v ∧ v ≠ "") ∧
    (∀ v, mapLookup pod.Labels "app" = some v → v ≠ "" →
      mapIndex pod.Labels "app" = v ∧
      restartCalls (loopBody c pod w).1 = [(pod.Namespace, v)]) := by
  refine ⟨?_, mapIndex_eq_empty_iff _ _, ?_⟩
  · rw [← mapIndex_eq_empty_iff]
    rcases loopBody_cases c pod w with ⟨hm, hb⟩ | ⟨hm, hl, hb⟩ | ⟨hm, hl, e, w1, hb⟩ |
        ⟨hm, hl, d, obj, e, w1, hb⟩ | ⟨hm, hl, d, obj, u, w1, hb⟩
    · rw [hmatch] at hm
      cases hm
    · simp [hb, hl]
    · simp [hb, hl]
    · simp [hb, hl]
    · simp [hb, hl]
  · intro v hv hne
    have hidx := mapIndex_of_lookup _ _ _ hv
    refine ⟨hidx, ?_⟩
    have hne' : mapIndex pod.Labels "app" ≠ "" := by rw [hidx]; exact hne
    rcases loopBody_cases c pod w with ⟨hm, hb⟩ | ⟨hm, hl, hb⟩ | ⟨hm, hl, e, w1, hb⟩ |
        ⟨hm, hl, d, obj, e, w1, hb⟩ | ⟨hm, hl, d, obj, u, w1, hb⟩
    · rw [hmatch] at hm
      cases hm
    · exact absurd hl hne'
    · simp [hb, restartCalls, hidx]
    · simp [hb, restartCalls, hidx]
    · simp [hb, restartCalls, hidx]

theorem owner_resolution_witness :
    containsIgnoreCase (mkPod "prod" "database-0" (some [("app", "database-svc")])).Name
        "database" = true ∧
      restartCalls (loopBody memCluster (mkPod "prod" "database-0"
        (some [("app", "database-svc")])) scenarioWorld).1 = [("prod", "database-svc")] :=
  ⟨by decide,
    ((owner_resolution memCluster (mkPod "prod" "database-0" (some [("app", "database-svc")]))
      scenarioWorld (by decide)).2.2 "database-svc" (by decide) (by decide)).2⟩

/-- C10: when listing the pods fails, the run logs the error and exits with
status 1; its only client call is the failed List: no Get, no Update. -/
theorem main_aborts_when_list_fails {σ : Type} (c : Cluster σ) (w w1 w2 w3 : σ) (err : GoError)
    (hconfig : c.BuildConfigFromFlags w = (none, w1)) (hclient : c.NewForConfig w1 = (none, w2))
    (hlist : c.ListPods w2 = (.error err, w3)) :
    (main c w).exit = 1 ∧ (main c w).exit ≠ 0 ∧
    (main c w).trace =
      [Event.list (.error err), Event.log ("error listing pods: " ++ err.Error)] ∧
    restartCalls (main c w).trace = [] ∧ submitted (main c w).trace = [] := by
  simp [main, hconfig, hclient, hlist, restartCalls, submitted]

theorem main_aborts_when_list_fails_witness :
    unreachableCluster.ListPods scenarioWorld = (.error ⟨"connection refused"⟩, scenarioWorld) ∧
    (main unreachableCluster scenarioWorld).exit = 1 ∧
    (main unreachableCluster scenarioWorld).exit ≠ 0 ∧
    (main unreachableCluster scenarioWorld).trace =
      [Event.list (.error ⟨"connection refused"⟩),
       Event.log ("error listing pods: " ++ (⟨"connection refused"⟩ : GoError).Error)] ∧
    restartCalls (main unreachableCluster scenarioWorld).trace = [] ∧
    submitted (main unreachableCluster scenarioWorld).trace = [] :=
  ⟨by decide,
    main_aborts_when_list_fails unreachableCluster scenarioWorld scenarioWorld scenarioWorld
      scenarioWorld ⟨"connection refused"⟩ (by decide) (by decide) (by decide)⟩

theorem map_eq_singleton {α β : Type} (f : α → β) (l : List α) (b : β) (h : l.map f = [b]) :
    ∃ a, l = [a] ∧ f a = b := by
  cases l with
  | nil => simp at h
  | cons a t =>
    cases t with
    | nil => exact ⟨a, rfl, by simpa using h⟩
    | cons a2 t2 => simp at h

theorem map_eq_pair {α β : Type} (f : α → β) (l : List α) (b1 b2 : β)
    (h : l.map f = [b1, b2]) : ∃ a1 a2, l = [a1, a2] ∧ f a1 = b1 ∧ f a2 = b2 := by
  cases l with
  | nil => simp at h
  | cons a1 t =>
    simp only [List.map_cons, List.cons.injEq] at h
    obtain ⟨a2, ht, h2⟩ := map_eq_singleton f t b2 h.2
    exact ⟨a1, a2, by rw [ht], h.1, h2⟩

/-- C6: in a run whose pod list is `pods`, the restart invocations are, in list
order, the pair (namespace, `app` label) of every pod whose name contains
"database" ignoring case and whose `app` label is not empty: one per such pod,
duplicates kept, none for any other pod.  For the two pods prod/database-0
(app=database-svc) and prod/frontend-0 (app=frontend-svc) this is the single
invocation on ("prod", "database-svc"). -/
theorem main_restart_invocations {σ : Type} (c : Cluster σ) (w w1 w2 w3 : σ) (pods : PodList)
    (hconfig : c.BuildConfigFromFlags w = (none, w1)) (hclient : c.NewForConfig w1 = (none, w2))
    (hlist : c.ListPods w2 = (.ok pods, w3)) :
    restartCalls (main c w).trace = pods.Items.filterMap restartTarget ∧
    (pods.Items.map (fun p => (p.Namespace, p.Name, p.Labels)) =
        [("prod", "database-0", some [("app", "database-svc")]),
         ("prod", "frontend-0", some [("app", "frontend-svc")])] →
      restartCalls (main c w).trace = [("prod", "database-svc")]) := by
  have htrace := (main_of_list_ok c w w1 w2 w3 pods hconfig hclient hlist).2
  have hcalls : restartCalls (main c w).trace = pods.Items.filterMap restartTarget := by
    rw [htrace]
    simp [restartCalls, restartCalls_mainLoop]
  refine ⟨hcalls, ?_⟩
  intro hitems
  rw [hcalls]
  obtain ⟨p1, p2, hp, hp1, hp2⟩ := map_eq_pair _ _ _ _ hitems
  simp only [Prod.mk.injEq] at hp1 hp2
  obtain ⟨hns1, hname1, hlabels1⟩ := hp1
  obtain ⟨hns2, hname2, hlabels2⟩ := hp2
  rw [hp]
  have h1 : containsIgnoreCase "database-0" "database" = true := by decide
  have h2 : containsIgnoreCase "frontend-0" "database" = false := by decide
  have h3 : mapIndex (some [("app", "database-svc")]) "app" = "database-svc" := by decide
  simp [List.filterMap_cons, restartTarget, hns1, hname1, hlabels1, hname2, h1, h2, h3]

theorem main_restart_invocations_witness :
    memCluster.ListPods scenarioWorld = (.ok ⟨scenarioPods⟩, scenarioWorld) ∧
      restartCalls (main memCluster scenarioWorld).trace = [("prod", "database-svc")] :=
  ⟨by decide,
    (main_restart_invocations memCluster scenarioWorld scenarioWorld scenarioWorld scenarioWorld
      ⟨scenarioPods⟩ (by decide) (by decide) (by decide)).2 (by decide)⟩

/-- C7: whatever the cluster answers to the Get and Update calls, a run that got
its pod list attempts a restart for every matched pod with a non-empty `app`
label (failures of earlier restarts change nothing), logs exactly one line
"Failed to restart deployment namespace/name: cause" for every failed restart,
in order, and exits with status 0. -/
theorem main_continues_after_failures {σ : Type} (c : Cluster σ) (w w1 w2 w3 : σ)
    (pods : PodList)
    (hconfig : c.BuildConfigFromFlags w = (none, w1)) (hclient : c.NewForConfig w1 = (none, w2))
    (hlist : c.ListPods w2 = (.ok pods, w3)) :
    (main c w).exit = 0 ∧
    restartCalls (main c w).trace = pods.Items.filterMap restartTarget ∧
    failureLogLines (main c w).trace =
      (restartFailures (main c w).trace).map
        (fun failure => failedLine failure.1 failure.2.1 failure.2.2) := by
  obtain ⟨hexit, htrace⟩ := main_of_list_ok c w w1 w2 w3 pods hconfig hclient hlist
  refine ⟨hexit, ?_, ?_⟩
  · rw [htrace]
    simp [restartCalls, restartCalls_mainLoop]
  · rw [htrace]
    have h := failureLogLines_mainLoop c pods.Items w3
    simp only [failureLogLines] at h ⊢
    simp [logLines, restartFailures, h]

theorem main_continues_after_failures_witness :
    memCluster.ListPods failingWorld = (.ok ⟨failingWorld.pods⟩, failingWorld) ∧
    (main memCluster failingWorld).exit = 0 ∧
    restartCalls (main memCluster failingWorld).trace =
      [("prod", "cache-svc"), ("prod", "database-svc")] ∧
    restartFailures (main memCluster failingWorld).trace =
      [("prod", "cache-svc", ⟨"not found"⟩)] ∧
    failureLogLines (main memCluster failingWorld).trace =
      ["Failed to restart deployment prod/cache-svc: not found"] :=
  have h := main_continues_after_failures memCluster failingWorld failingWorld failingWorld
    failingWorld ⟨failingWorld.pods⟩ (by decide) (by decide) (by decide)
  ⟨by decide, h.1, h.2.1.trans (by decide), by decide, h.2.2.trans (by decide)⟩

/-- C8: a matched pod whose `app` label is missing or empty causes no client
call: its iteration prints the "found" line, logs one skip line naming the
pod's namespace and name, leaves the world as it was, and the loop goes on with
the next pod.  A run whose pod list is the single pod dev/database-test without
labels makes no Get and no Update, logs that one skip line and exits with
status 0. -/
theorem loop_skips_unlabelled {σ : Type} (c : Cluster σ) :
    (∀ (pod : Pod) (rest : List Pod) (w : σ),
      containsIgnoreCase pod.Name "database" = true →
      (∀ v, mapLookup pod.Labels "app" = some v → v = "") →
        loopBody c pod w =
          ([Event.stdout (foundPodLine pod.Namespace pod.Name),
            Event.log (skipLine pod.Namespace pod.Name)], w) ∧
        restartCalls (loopBody c pod w).1 = [] ∧
        submitted (loopBody c pod w).1 = [] ∧
        logLines (loopBody c pod w).1 = [skipLine pod.Namespace pod.Name] ∧
        mainLoop c (pod :: rest) w =
          ([Event.stdout (foundPodLine pod.Namespace pod.Name),
            Event.log (skipLine pod.Namespace pod.Name)] ++ (mainLoop c rest w).1,
           (mainLoop c rest w).2)) ∧
    (∀ (w w1 w2 w3 : σ) (pods : PodList),
      c.BuildConfigFromFlags w = (none, w1) → c.NewForConfig w1 = (none, w2) →
      c.ListPods w2 = (.ok pods, w3) →
      pods.Items.map (fun p => (p.Namespace, p.Name, p.Labels)) =
        [("dev", "database-test", some [])] →
        (main c w).exit = 0 ∧
        restartCalls (main c w).trace = [] ∧
        submitted (main c w).trace = [] ∧
        logLines (main c w).trace =
          ["Pod dev/database-test does not have an associated deployment"]) := by
  have hbody : ∀ (pod : Pod) (w : σ), containsIgnoreCase pod.Name "database" = true →
      (∀ v, mapLookup pod.Labels "app" = some v → v = "") →
      loopBody c pod w =
        ([Event.stdout (foundPodLine pod.Namespace pod.Name),
          Event.log (skipLine pod.Namespace pod.Name)], w) := by
    intro pod w hm hno
    have hl : mapIndex pod.Labels "app" = "" := by
      rw [mapIndex_eq_empty_iff]
      rintro ⟨v, hv, hne⟩
      exact hne (hno v hv)
    simp [loopBody, hm, hl]
  constructor
  · intro pod rest w hm hno
    have hb := hbody pod w hm hno
    refine ⟨hb, ?_, ?_, ?_, ?_⟩
    · simp [hb, restartCalls]
    · simp [hb, submitted]
    · simp [hb, logLines]
    · rw [mainLoop_cons, hb]
  · intro w w1 w2 w3 pods hconfig hclient hlist hitems
    obtain ⟨hexit, htrace⟩ := main_of_list_ok c w w1 w2 w3 pods hconfig hclient hlist
    obtain ⟨p, hp, hp1⟩ := map_eq_singleton _ _ _ hitems
    simp only [Prod.mk.injEq] at hp1
    obtain ⟨hns, hname, hlabels⟩ := hp1
    have hm : containsIgnoreCase p.Name "database" = true := by rw [hname]; decide
    have hno : ∀ v, mapLookup p.Labels "app" = some v → v = "" := by
      intro v hv
      rw [hlabels] at hv
      simp [mapLookup, entriesLookup] at hv
    have hb := hbody p w3 hm hno
    have hline : skipLine p.Namespace p.Name =
        "Pod dev/database-test does not have an associated deployment" := by
      rw [hns, hname]; decide
    rw [htrace, hp, mainLoop_cons, hb]
    refine ⟨hexit, ?_, ?_, ?_⟩
    · simp [restartCalls, mainLoop]
    · simp [submitted, mainLoop]
    · simp [logLines, mainLoop, hline]

theorem loop_skips_unlabelled_witness :
    memCluster.ListPods unlabelledWorld =
        (.ok ⟨[mkPod "dev" "database-test" (some [])]⟩, unlabelledWorld) ∧
    (main memCluster unlabelledWorld).exit = 0 ∧
    restartCalls (main memCluster unlabelledWorld).trace = [] ∧
    submitted (main memCluster unlabelledWorld).trace = [] ∧
    logLines (main memCluster unlabelledWorld).trace =
      ["Pod dev/database-test does not have an associated deployment"] :=
  ⟨by decide,
    (loop_skips_unlabelled memCluster).2 unlabelledWorld unlabelledWorld unlabelledWorld
      unlabelledWorld ⟨[mkPod "dev" "database-test" (some [])]⟩
      (by decide) (by decide) (by decide) (by decide)⟩

/-! ## Lemmas on the case mappings -/

theorem ascii_lower_upper_table :
    ∀ n : Fin 128, unicodeToLower (unicodeToUpper (Char.ofNat n.val)) =
      unicodeToLower (Char.ofNat n.val) := by
  decide

theorem ascii_lower_lower_table :
    ∀ n : Fin 128, unicodeToLower (unicodeToLower (Char.ofNat n.val)) =
      unicodeToLower (Char.ofNat n.val) := by
  decide

theorem unicodeToLower_unicodeToUpper_ascii (r : Char) (h : r.toNat ≤ MaxASCII) :
    unicodeToLower (unicodeToUpper r) = unicodeToLower r := by
  have hlt : r.toNat < 128 := Nat.lt_succ_of_le h
  have ht := ascii_lower_upper_table ⟨r.toNat, hlt⟩
  simpa [Char.ofNat_toNat] using ht

theorem unicodeToLower_unicodeToLower_ascii (r : Char) (h : r.toNat ≤ MaxASCII) :
    unicodeToLower (unicodeToLower r) = unicodeToLower r := by
  have hlt : r.toNat < 128 := Nat.lt_succ_of_le h
  have ht := ascii_lower_lower_table ⟨r.toNat, hlt⟩
  simpa [Char.ofNat_toNat] using ht

theorem ToLower_ToUpper_ascii (s : String) (hascii : ∀ r ∈ s.data, r.toNat ≤ MaxASCII) :
    ToLower (ToUpper s) = ToLower s := by
  simp only [ToLower, ToUpper, List.map_map]
  congr 1
  apply List.map_congr_left
  intro r hr
  exact unicodeToLower_unicodeToUpper_ascii r (hascii r hr)

theorem ToLower_ToLower_ascii (s : String) (hascii : ∀ r ∈ s.data, r.toNat ≤ MaxASCII) :
    ToLower (ToLower s) = ToLower s := by
  simp only [ToLower, List.map_map]
  congr 1
  apply List.map_congr_left
  intro r hr
  exact unicodeToLower_unicodeToLower_ascii r (hascii r hr)

/-- C5, as stated, fails: the name "databaſe" (with U+017F, long s) does not
contain "database" ignoring case, but its upper-case form "DATABASE" does. -/
theorem containsIgnoreCase_not_case_symmetric :
    containsIgnoreCase "databaſe" "database" = false ∧
    containsIgnoreCase (ToUpper "databaſe") "database" = true ∧
    containsIgnoreCase "databaſe" "database" ≠
      containsIgnoreCase (ToUpper "databaſe") "database" := by
  decide

/-- C5, amended: for every string `s` made of ASCII runes and every needle,
`containsIgnoreCase` gives the same answer on `s`, on `ToUpper s` and on
`ToLower s`. -/
theorem containsIgnoreCase_ascii_case_symmetric (s needle : String)
    (hascii : ∀ r ∈ s.data, r.toNat ≤ MaxASCII) :
    containsIgnoreCase s needle = containsIgnoreCase (ToUpper s) needle ∧
    containsIgnoreCase (ToUpper s) needle = containsIgnoreCase (ToLower s) needle := by
  simp only [containsIgnoreCase, ToLower_ToUpper_ascii s hascii, ToLower_ToLower_ascii s hascii,
    and_self]

theorem containsIgnoreCase_ascii_case_symmetric_witness :
    (∀ r ∈ ("Database-0" : String).data, r.toNat ≤ MaxASCII) ∧
    containsIgnoreCase "Database-0" "database" =
      containsIgnoreCase (ToUpper "Database-0") "database" ∧
    containsIgnoreCase (ToUpper "Database-0") "database" =
      containsIgnoreCase (ToLower "Database-0") "database" :=
  ⟨by decide, containsIgnoreCase_ascii_case_symmetric "Database-0" "database" (by decide)⟩

end Redeploy
